import Mathlib

/-!
Verification of the auth/session bridge and file import pipeline of the
svitla backend (Flask + SQLAlchemy + Google Drive).  The Python routes in
src/backend/routes/auth.py and src/backend/routes/files.py, together with
the model classes in src/backend/models.py, are shallowly embedded below:
database tables become lists of records, the SQLAlchemy session becomes
explicit state passing (with uncommitted changes discarded on early error
returns, matching request-teardown rollback), remote capabilities
(token fetch, user-info fetch, drive download) become explicit parameters,
and wall-clock instants become integers.
-/

/-! ### Data model (src/backend/models.py) -/

/-- Row of the users table. -/
structure UserRec where
  id : Nat
  email : String
  google_id : String
  name : Option String
  picture : Option String
deriving DecidableEq, Repr

/-- Row of the oauth_tokens table (one per user, unique user_id).
The expiry instant is modelled as an integer timestamp; none mirrors NULL. -/
structure OAuthTokenRec where
  user_id : Nat
  access_token : String
  refresh_token : Option String
  expires_at : Option Int
deriving DecidableEq, Repr

/-- OAuthToken.is_expired: a missing expiry counts as expired, otherwise
expired when now is at or past the expiry instant. -/
def OAuthTokenRec.is_expired (t : OAuthTokenRec) (now : Int) : Bool :=
  match t.expires_at with
  | none => true
  | some e => e ≤ now

/-- Row of the auth_tokens table (one-time exchange tokens); expires_at is
NOT NULL in the schema, hence a plain integer. -/
structure AuthTokenRec where
  token : String
  user_id : Nat
  expires_at : Int
deriving DecidableEq, Repr

/-- AuthToken.is_expired: expired when now is at or past the expiry instant. -/
def AuthTokenRec.is_expired (t : AuthTokenRec) (now : Int) : Bool :=
  t.expires_at ≤ now

/-- Row of the files table. -/
structure FileRec where
  user_id : Nat
  name : String
  mime_type : String
  size : Nat
  google_drive_id : String
  local_path : String
deriving DecidableEq, Repr

/-! ### Session bridge: exchange_token (src/backend/routes/auth.py, /exchange) -/

/-- Outcome of the /exchange endpoint, abstracting the HTTP payloads. -/
inductive ExchangeResult where
  | noToken
  | invalidToken
  | tokenExpired
  | userNotFound (user_id : Nat)
  | success (user_id : Nat)
deriving DecidableEq, Repr

/-- The /exchange handler: look the presented string up in the auth_tokens
table; a found-but-expired token is deleted and reported expired; a valid
token is deleted (one-time use) and its user id returned.  The token-table
state after the request is returned alongside the result. -/
def exchange_token (authTokens : List AuthTokenRec) (users : List UserRec)
    (now : Int) (token_str : Option String) :
    ExchangeResult × List AuthTokenRec :=
  match token_str with
  | none => (.noToken, authTokens)
  | some s =>
    if s = "" then (.noToken, authTokens)
    else
      match authTokens.find? (fun t => t.token == s) with
      | none => (.invalidToken, authTokens)
      | some t =>
        if t.is_expired now then
          (.tokenExpired, authTokens.eraseP (fun x => x.token == s))
        else
          let remaining := authTokens.eraseP (fun x => x.token == s)
          match users.find? (fun u => u.id == t.user_id) with
          | none => (.userNotFound t.user_id, remaining)
          | some _ => (.success t.user_id, remaining)

/-! ### Credential manager: get_valid_credentials (src/backend/routes/auth.py) -/

/-- The google.oauth2 Credentials object as far as the routes observe it. -/
structure GCredentials where
  token : String
  refresh_token : Option String
deriving DecidableEq, Repr

/-- Outcome of the remote token-refresh capability (credentials.refresh):
on success the provider returns a fresh access token and possibly a fresh
expiry; failure covers network errors, revoked grants, invalid refresh
tokens and timeouts. -/
inductive RefreshOutcome where
  | success (newToken : String) (newExpiry : Option Int)
  | failure
deriving DecidableEq, Repr

/-- get_valid_credentials: look up the stored OAuth token row for the user;
if absent return none.  If the row is expired AND has a refresh token,
attempt one refresh: on success persist the new access token (and the new
expiry when the provider supplied one) and return the refreshed
credentials; on failure return none.  In every other case return
credentials built from the stored row as-is.  Returns the credential
option together with the oauth_tokens table after the call. -/
def get_valid_credentials (store : List OAuthTokenRec) (user_id : Nat)
    (now : Int) (refresh : RefreshOutcome) :
    Option GCredentials × List OAuthTokenRec :=
  match store.find? (fun t => t.user_id == user_id) with
  | none => (none, store)
  | some tok =>
    if tok.is_expired now && tok.refresh_token.isSome then
      match refresh with
      | .failure => (none, store)
      | .success newTok newExp =>
        let tok' : OAuthTokenRec :=
          { tok with
            access_token := newTok
            expires_at := match newExp with
              | some e => some e
              | none => tok.expires_at }
        (some { token := newTok, refresh_token := tok.refresh_token },
         store.map (fun x => if x.user_id == user_id then tok' else x))
    else
      (some { token := tok.access_token, refresh_token := tok.refresh_token },
       store)

/-! ### Auth handshake: the /callback route (src/backend/routes/auth.py) -/

/-- Config.GOOGLE_SCOPES (src/backend/config.py). -/
def GOOGLE_SCOPES : List String :=
  ["https://www.googleapis.com/auth/drive.readonly",
   "https://www.googleapis.com/auth/userinfo.email",
   "https://www.googleapis.com/auth/userinfo.profile",
   "openid"]

/-- The token set handed back by flow.fetch_token. -/
structure TokenSet where
  token : String
  refresh_token : Option String
  scopes : List String
  expiry : Option Int
deriving DecidableEq, Repr

/-- The user-info payload fetched from the provider. -/
structure UserInfo where
  id : String
  email : String
  name : Option String
  picture : Option String
deriving DecidableEq, Repr

/-- str.replace applied for newline then carriage return, each replaced by
one space (both patterns are single characters, so this is a character map). -/
def stripNewlines (s : String) : String :=
  String.mk (s.data.map (fun c => if c == '\n' || c == '\r' then ' ' else c))

/-- Upper-case hexadecimal digit for a value below 16, as urllib uses. -/
def hexDigitChar (n : Nat) : Char :=
  if n < 10 then Char.ofNat (48 + n) else Char.ofNat (55 + n)

/-- UTF-8 encoding of one character, as a list of byte values; urllib quotes
the UTF-8 encoding of the string. -/
def utf8Bytes (c : Char) : List Nat :=
  let n := c.toNat
  if n < 128 then [n]
  else if n < 2048 then [192 + n / 64, 128 + n % 64]
  else if n < 65536 then [224 + n / 4096, 128 + n / 64 % 64, 128 + n % 64]
  else [240 + n / 262144, 128 + n / 4096 % 64, 128 + n / 64 % 64, 128 + n % 64]

/-- Percent-escape of one byte. -/
def percentByte (b : Nat) : List Char :=
  ['%', hexDigitChar (b / 16), hexDigitChar (b % 16)]

/-- urllib.parse.quote on one character with the default safe set: ASCII
letters and digits, the four always-safe marks and the slash pass through,
everything else is percent-escaped bytewise. -/
def quoteChar (c : Char) : List Char :=
  if c.isAlphanum || c == '_' || c == '.' || c == '-' || c == '~' || c == '/'
  then [c]
  else ((utf8Bytes c).map percentByte).flatten

/-- urllib.parse.quote with the default safe characters. -/
def quote (s : String) : String :=
  String.mk (s.data.map quoteChar).flatten

/-- Characters that may appear in a percent-encoded URL component: the
pass-through set of the quoting function plus the escape marker. -/
def urlSafeChar (c : Char) : Bool :=
  c.isAlphanum || c == '_' || c == '.' || c == '-' || c == '~' || c == '/' || c == '%'

/-- The friendly message substituted for cached scope-change errors. -/
def scopeChangedFriendlyMessage : String :=
  "Please try signing in again. If the issue persists, revoke app access and try again."

/-- The message embedded in the error redirect of the callback: the raised
error text with newlines and carriage returns replaced by spaces, with a
special friendly rewording when the text mentions both a scope change and
the drive.readonly scope, and then percent-encoded for the redirect URL.
Membership of a pattern in the text is via String.splitOn, mirroring the
Python in-operator on strings. -/
def callbackErrorMessage (e : String) : String :=
  let em := stripNewlines e
  if 2 ≤ (em.splitOn "Scope has changed").length ∧
      2 ≤ (em.splitOn "drive.readonly").length
  then quote scopeChangedFriendlyMessage
  else quote em

/-- Outcome of the /callback route: a success redirect carrying the minted
exchange token, a silent re-authorization redirect (scope mismatch), or an
error redirect carrying a sanitized message. -/
inductive CallbackOutcome where
  | success (token : String)
  | retryAuth
  | error (message : String)
deriving DecidableEq, Repr

/-- All durable auth-side state the callback touches. -/
structure AuthState where
  users : List UserRec
  oauthTokens : List OAuthTokenRec
  authTokens : List AuthTokenRec
deriving DecidableEq, Repr

/-- Fresh autoincrement primary key for the users table. -/
def nextUserId (users : List UserRec) : Nat :=
  users.foldr (fun u m => max m u.id) 0 + 1

/-- Lookup-or-create of the User row keyed on the Google subject id. -/
def findOrCreateUser (users : List UserRec) (info : UserInfo) :
    UserRec × List UserRec :=
  match users.find? (fun u => u.google_id == info.id) with
  | some u => (u, users)
  | none =>
    let u : UserRec :=
      { id := nextUserId users, email := info.email, google_id := info.id,
        name := info.name, picture := info.picture }
    (u, users ++ [u])

/-- Update-or-create of the OAuth token row for a user: an update keeps the
prior refresh token when the provider returned none. -/
def upsertOAuthToken (toks : List OAuthTokenRec) (uid : Nat) (creds : TokenSet) :
    List OAuthTokenRec :=
  match toks.find? (fun t => t.user_id == uid) with
  | some _ =>
    toks.map (fun x =>
      if x.user_id == uid then
        { x with
          access_token := creds.token
          refresh_token := match creds.refresh_token with
            | some r => some r
            | none => x.refresh_token
          expires_at := creds.expiry }
      else x)
  | none =>
    toks ++ [{ user_id := uid, access_token := creds.token,
               refresh_token := creds.refresh_token,
               expires_at := creds.expiry }]

/-- cleanup_expired_tokens: delete every auth token whose expiry is strictly
in the past. -/
def cleanupExpiredTokens (toks : List AuthTokenRec) (now : Int) :
    List AuthTokenRec :=
  toks.filter (fun t => !(t.expires_at < now))

/-- The /callback route body.  The three remote calls (authorization-code
exchange, user-info fetch, and the immediate Drive list probe) are passed
in as Except results; a raised exception takes the error-redirect path with
the sanitized message and leaves the database untouched (nothing was
committed before these points).  A granted scope set that misses a required
scope yields a plain redirect to a fresh authorization URL, with no state
change and no error.  Otherwise the user row is looked up or created by
subject id, the OAuth token row is upserted, expired exchange tokens are
swept, and a fresh five-minute single-use exchange token is stored and
handed back in the success redirect. -/
def callback (st : AuthState) (fetchResult : Except String TokenSet)
    (userInfoResult : Except String UserInfo) (driveProbe : Except String Unit)
    (now : Int) (newTokenStr : String) : CallbackOutcome × AuthState :=
  match fetchResult with
  | .error e => (.error (callbackErrorMessage e), st)
  | .ok creds =>
    if !(GOOGLE_SCOPES.all (fun s => creds.scopes.contains s)) then
      (.retryAuth, st)
    else
      match userInfoResult with
      | .error e => (.error (callbackErrorMessage e), st)
      | .ok info =>
        match driveProbe with
        | .error e => (.error (callbackErrorMessage e), st)
        | .ok _ =>
          let resolved := findOrCreateUser st.users info
          let oauthTokens' := upsertOAuthToken st.oauthTokens resolved.1.id creds
          let swept := cleanupExpiredTokens st.authTokens now
          let newAuth : AuthTokenRec :=
            { token := newTokenStr, user_id := resolved.1.id,
              expires_at := now + 5 * 60 }
          (.success newTokenStr,
           { users := resolved.2, oauthTokens := oauthTokens',
             authTokens := swept ++ [newAuth] })

/-- Number of user rows carrying a given Google subject id. -/
def countGoogleId (users : List UserRec) (g : String) : Nat :=
  (users.filter (fun u => u.google_id == g)).length

/-! ### Import pipeline (src/backend/routes/files.py, /import) -/

/-- The Python generator filter keeping alphanumerics, dot, underscore,
hyphen and space. -/
def sanitizeFilename (s : String) : String :=
  String.mk (s.data.filter (fun c =>
    c.isAlphanum || c == '.' || c == '_' || c == '-' || c == ' '))

/-- The Python str.startswith, at the character level. -/
def pyStartsWith (s pre : String) : Bool :=
  pre.data.isPrefixOf s.data

/-- The Python str.endswith, at the character level. -/
def pyEndsWith (s post : String) : Bool :=
  post.data.isSuffixOf s.data

/-- Appends the export extension when one applies and the name does not
already end with it. -/
def importedFileName (metaName ext : String) : String :=
  if ext ≠ "" && !(pyEndsWith metaName ext) then metaName ++ ext else metaName

/-- The filename part: user id, Drive file id and sanitized display name
joined with underscores. -/
def localFilename (user_id : Nat) (file_id safe : String) : String :=
  toString user_id ++ "_" ++ file_id ++ "_" ++ safe

/-- os.path.join of the upload folder with the derived filename (the
filename starts with a digit, so the join inserts one separator). -/
def localPath (upload : String) (user_id : Nat) (file_id fname : String) :
    String :=
  upload ++ "/" ++ localFilename user_id file_id (sanitizeFilename fname)

/-- Content-type classification of the import: the three supported Google
Workspace subtypes map to a fixed export mime and extension, any other
application/vnd.google-apps subtype is unsupported, anything else is a
native binary downloaded raw. -/
inductive ExportPlan where
  | exportAs (mime ext : String)
  | unsupported
  | raw
deriving DecidableEq, Repr

/-- The mime dispatch chain of the import handler. -/
def classifyMime (m : String) : ExportPlan :=
  if m == "application/vnd.google-apps.document" then
    .exportAs "application/pdf" ".pdf"
  else if m == "application/vnd.google-apps.spreadsheet" then
    .exportAs "application/vnd.openxmlformats-officedocument.spreadsheetml.sheet" ".xlsx"
  else if m == "application/vnd.google-apps.presentation" then
    .exportAs "application/pdf" ".pdf"
  else if pyStartsWith m "application/vnd.google-apps" then
    .unsupported
  else
    .raw

/-- Result of the /import handler from the dedup check on. -/
inductive ImportResult where
  | alreadyImported (existing : FileRec)
  | unsupportedFormat
  | created (f : FileRec)
deriving DecidableEq, Repr

/-- Durable state the import touches: committed file rows and on-disk blob
paths. -/
structure ImportState where
  files : List FileRec
  disk : List String
deriving DecidableEq, Repr

/-- State after an import call, plus whether any remote bytes were
transferred (export_media or get_media followed by the download loop). -/
structure ImportOutcome where
  result : ImportResult
  files : List FileRec
  disk : List String
  transferred : Bool
deriving DecidableEq, Repr

/-- Writing the blob: the path holds a blob afterwards regardless of
whether it did before. -/
def insertPath (disk : List String) (p : String) : List String :=
  if disk.contains p then disk else p :: disk

/-- Download (raw or export), write the blob, measure the on-disk size,
insert the file row and commit; the committed table is the staged table
plus the new row. -/
def importDownloadCommit (upload : String) (user_id : Nat)
    (fileId metaName final_mime ext : String) (downloadSize : Nat)
    (staged : List FileRec) (disk : List String) : ImportOutcome :=
  let file_name := importedFileName metaName ext
  let path := localPath upload user_id fileId file_name
  let newFile : FileRec :=
    { user_id := user_id, name := file_name, mime_type := final_mime,
      size := downloadSize, google_drive_id := fileId, local_path := path }
  { result := .created newFile, files := staged ++ [newFile],
    disk := insertPath disk path, transferred := true }

/-- The classification step and everything after it.  The committed table
is what survives if the request returns without a commit (the staged
deletion of an overwritten row is rolled back at teardown); the staged
table is what a final commit would persist. -/
def importClassified (upload : String) (user_id : Nat)
    (fileId metaName metaMime : String) (downloadSize : Nat)
    (committed staged : List FileRec) (disk : List String) : ImportOutcome :=
  match classifyMime metaMime with
  | .unsupported =>
    { result := .unsupportedFormat, files := committed, disk := disk,
      transferred := false }
  | .exportAs em ext =>
    importDownloadCommit upload user_id fileId metaName em ext downloadSize
      staged disk
  | .raw =>
    importDownloadCommit upload user_id fileId metaName metaMime ""
      downloadSize staged disk

/-- The /import handler body from the dedup lookup on (session, fileId
presence, credentials and the metadata fetch succeed upstream of this
point without touching local state).  A prior row for the pair with
overwrite off returns the conflict before anything changes.  With
overwrite on, the prior blob is removed from disk at once (a missing blob
is ignored) while the row deletion is only staged in the database session,
and the flow proceeds to classification. -/
def import_file (upload : String) (user_id : Nat) (fileId : String)
    (overwrite : Bool) (metaName metaMime : String) (downloadSize : Nat)
    (st : ImportState) : ImportOutcome :=
  match st.files.find? (fun f => f.user_id == user_id && f.google_drive_id == fileId) with
  | some existing =>
    if !overwrite then
      { result := .alreadyImported existing, files := st.files,
        disk := st.disk, transferred := false }
    else
      let disk1 := st.disk.eraseP (fun p => p == existing.local_path)
      let staged := st.files.eraseP
        (fun f => f.user_id == user_id && f.google_drive_id == fileId)
      importClassified upload user_id fileId metaName metaMime downloadSize
        st.files staged disk1
  | none =>
    importClassified upload user_id fileId metaName metaMime downloadSize
      st.files st.files st.disk

/-- Number of file rows for one (user id, Drive file id) pair. -/
def countPair (files : List FileRec) (user_id : Nat) (fileId : String) : Nat :=
  (files.filter (fun f => f.user_id == user_id && f.google_drive_id == fileId)).length

/-! ## Theorems -/

/-- C1 (counterexample): a stored credential that is expired at the query
instant and has no refresh token is returned as-is rather than dropped:
the single stored row expires at instant 0, the call happens at instant
10, and get_valid_credentials still hands back a credential, where the
claim demands that nothing is returned. -/
theorem getValidCredentials_expiredNoRefresh_counterexample :
    (OAuthTokenRec.is_expired ⟨1, "at", none, some 0⟩ 10) = true ∧
    (get_valid_credentials [⟨1, "at", none, some 0⟩] 1 10 .failure).1 =
      some ⟨"at", none⟩ ∧
    (get_valid_credentials [⟨1, "at", none, some 0⟩] 1 10 .failure).1 ≠ none := by
  refine ⟨by decide, by decide, by decide⟩

/-- C1 (amended): when the stored row is expired and carries no refresh
token, get_valid_credentials attempts no refresh (the refresh outcome is
irrelevant) and returns credentials built from the stored, stale access
token with the store unchanged; nothing is returned only when no row
exists or when an attempted refresh fails. -/
theorem getValidCredentials_expiredNoRefresh_amended :
    ∀ (store : List OAuthTokenRec) (uid : Nat) (now : Int)
      (refresh : RefreshOutcome) (tok : OAuthTokenRec),
      store.find? (fun t => t.user_id == uid) = some tok →
      tok.is_expired now = true →
      tok.refresh_token = none →
      get_valid_credentials store uid now refresh =
        (some { token := tok.access_token, refresh_token := none }, store) := by
  intro store uid now refresh tok hfind hexp hrt
  simp [get_valid_credentials, hfind, hrt]

/-- Witness for the amended C1 at a concrete expired, refreshless store. -/
theorem getValidCredentials_expiredNoRefresh_amended_witness :
    get_valid_credentials [⟨1, "at", none, some 0⟩] 1 10 .failure =
      (some { token := "at", refresh_token := none }, [⟨1, "at", none, some 0⟩]) :=
  getValidCredentials_expiredNoRefresh_amended [⟨1, "at", none, some 0⟩] 1 10
    .failure ⟨1, "at", none, some 0⟩ (by decide) (by decide) rfl

/-- C6: with a prior File row for the (user id, Drive id) pair and
overwrite off, import fails with the conflict result carrying the
existing row, the file table and the disk are untouched, and exactly one
row for the pair remains afterwards. -/
theorem import_file_duplicate_conflict :
    ∀ (up : String) (uid : Nat) (fid name mime : String) (size : Nat)
      (st : ImportState) (e : FileRec),
      st.files.find? (fun f => f.user_id == uid && f.google_drive_id == fid) = some e →
      countPair st.files uid fid = 1 →
      import_file up uid fid false name mime size st =
        { result := .alreadyImported e, files := st.files, disk := st.disk,
          transferred := false } ∧
      countPair (import_file up uid fid false name mime size st).files uid fid = 1 ∧
      (import_file up uid fid false name mime size st).disk = st.disk := by
  intro up uid fid name mime size st e hfind hcount
  have heq : import_file up uid fid false name mime size st =
      { result := .alreadyImported e, files := st.files, disk := st.disk,
        transferred := false } := by
    simp [import_file, hfind]
  exact ⟨heq, by rw [heq]; exact hcount, by rw [heq]⟩

/-- Witness for C6 on a one-row table. -/
theorem import_file_duplicate_conflict_witness :
    import_file "up" 1 "fid" false "n2" "m2" 7
        ⟨[⟨1, "n", "m", 3, "fid", "p"⟩], ["p"]⟩ =
      { result := .alreadyImported ⟨1, "n", "m", 3, "fid", "p"⟩,
        files := [⟨1, "n", "m", 3, "fid", "p"⟩], disk := ["p"],
        transferred := false } :=
  (import_file_duplicate_conflict "up" 1 "fid" "n2" "m2" 7
    ⟨[⟨1, "n", "m", 3, "fid", "p"⟩], ["p"]⟩ ⟨1, "n", "m", 3, "fid", "p"⟩
    (by decide) (by decide)).1

/-- In a table whose token strings are pairwise distinct, the lookup by a
member's token string finds exactly that member. -/
theorem find?_token_unique :
    ∀ (l : List AuthTokenRec) (t : AuthTokenRec) (s : String),
      l.Pairwise (fun a b => a.token ≠ b.token) → t ∈ l → t.token = s →
      l.find? (fun x => x.token == s) = some t := by
  intro l
  induction l with
  | nil => intro t s _ ht _; cases ht
  | cons a tl ih =>
    intro t s hp ht hs
    rcases List.mem_cons.mp ht with rfl | htl
    · subst hs
      simp [List.find?]
    · have hne : a.token ≠ t.token := (List.pairwise_cons.mp hp).1 t htl
      have hpa : (a.token == s) = false := by
        simp only [beq_eq_false_iff_ne, ne_eq]
        intro hcontra
        exact hne (hcontra.trans hs.symm)
      simp only [List.find?, hpa]
      exact ih t s (List.pairwise_cons.mp hp).2 htl hs

/-- Deleting the first row with a given token string from a pairwise
token-distinct table leaves no row with that string. -/
theorem eraseP_token_all_ne :
    ∀ (l : List AuthTokenRec) (s : String),
      l.Pairwise (fun a b => a.token ≠ b.token) →
      ∀ x ∈ l.eraseP (fun y => y.token == s), x.token ≠ s := by
  intro l
  induction l with
  | nil => intro s _ x hx; cases hx
  | cons a tl ih =>
    intro s hp x hx
    by_cases hpa : a.token = s
    · rw [List.eraseP_cons_of_pos (by simp [hpa])] at hx
      have := (List.pairwise_cons.mp hp).1 x hx
      rw [hpa] at this
      exact fun h => this h.symm
    · rw [List.eraseP_cons_of_neg (by simp [hpa])] at hx
      rcases List.mem_cons.mp hx with rfl | hx'
      · exact hpa
      · exact ih s (List.pairwise_cons.mp hp).2 x hx'

/-- C7: presenting a token string that is stored but expired fails with
the expired result and deletes that row, so no row with that string
remains afterwards. -/
theorem exchange_token_expired_deletes :
    ∀ (toks : List AuthTokenRec) (users : List UserRec) (now : Int)
      (s : String) (t : AuthTokenRec),
      toks.Pairwise (fun a b => a.token ≠ b.token) →
      t ∈ toks → t.token = s → s ≠ "" → t.is_expired now = true →
      exchange_token toks users now (some s) =
        (.tokenExpired, toks.eraseP (fun x => x.token == s)) ∧
      ∀ x ∈ (exchange_token toks users now (some s)).2, x.token ≠ s := by
  intro toks users now s t hp ht hs hne hexp
  have hfind := find?_token_unique toks t s hp ht hs
  have heq : exchange_token toks users now (some s) =
      (.tokenExpired, toks.eraseP (fun x => x.token == s)) := by
    simp [exchange_token, hne, hfind, hexp]
  refine ⟨heq, ?_⟩
  rw [heq]
  exact eraseP_token_all_ne toks s hp

/-- Witness for C7: an expired stored token is reported expired and its
row is gone. -/
theorem exchange_token_expired_deletes_witness :
    exchange_token [⟨"tk", 7, 0⟩] [] 5 (some "tk") = (.tokenExpired, []) :=
  (exchange_token_expired_deletes [⟨"tk", 7, 0⟩] [] 5 "tk" ⟨"tk", 7, 0⟩
    (by decide) (by decide) rfl (by decide) (by decide)).1

/-- C2: a successful redemption consumes the token row, so redeeming the
same string against the resulting store fails with the invalid-token or
expired-token error, at any later instant and whatever the user table. -/
theorem exchange_token_single_use :
    ∀ (toks : List AuthTokenRec) (users : List UserRec) (now : Int)
      (s : String) (uid : Nat) (toks' : List AuthTokenRec),
      toks.Pairwise (fun a b => a.token ≠ b.token) →
      exchange_token toks users now (some s) = (.success uid, toks') →
      ∀ (users2 : List UserRec) (now2 : Int),
        (exchange_token toks' users2 now2 (some s)).1 = .invalidToken ∨
        (exchange_token toks' users2 now2 (some s)).1 = .tokenExpired := by
  intro toks users now s uid toks' hp hrun users2 now2
  left
  by_cases hs : s = ""
  · subst hs; simp [exchange_token] at hrun
  · simp only [exchange_token, if_neg hs] at hrun
    cases hfind : toks.find? (fun t => t.token == s) with
    | none => rw [hfind] at hrun; simp at hrun
    | some t =>
      rw [hfind] at hrun
      by_cases hexp : t.is_expired now
      · simp [hexp] at hrun
      · simp only [hexp, Bool.false_eq_true, if_false, if_neg] at hrun
        have htoks' : toks' = toks.eraseP (fun x => x.token == s) := by
          cases husr : users.find? (fun u => u.id == t.user_id) with
          | none => rw [husr] at hrun; simp at hrun
          | some u => rw [husr] at hrun; exact (Prod.mk.injEq _ _ _ _ ▸ hrun).2.symm ▸ rfl
        have hnone : toks'.find? (fun x => x.token == s) = none := by
          rw [htoks']
          apply List.find?_eq_none.mpr
          intro x hx
          have := eraseP_token_all_ne toks s hp x hx
          simp [this]
        simp [exchange_token, hs, hnone]

/-- Witness for C2: the second redemption of a consumed token string is
rejected as invalid. -/
theorem exchange_token_single_use_witness :
    (exchange_token [] [⟨7, "e", "g", none, none⟩] 9 (some "tk")).1 =
        ExchangeResult.invalidToken ∨
    (exchange_token [] [⟨7, "e", "g", none, none⟩] 9 (some "tk")).1 =
        ExchangeResult.tokenExpired :=
  exchange_token_single_use [⟨"tk", 7, 100⟩] [⟨7, "e", "g", none, none⟩] 0 "tk" 7
    [] (by decide) (by decide) [⟨7, "e", "g", none, none⟩] 9

/-- C3 (counterexample): the callback holds no retry counter, so a second
consecutive scope-mismatch callback again redirects to a fresh
authorization URL instead of surfacing an error: with an empty granted
scope set, the first callback yields the re-authorization redirect, and
running the callback again on the resulting state with the same mismatched
grant yields the re-authorization redirect once more, not an error. -/
theorem callback_scope_retry_unbounded_counterexample :
    (callback ⟨[], [], []⟩ (.ok ⟨"at", none, [], none⟩)
        (.ok ⟨"g-123", "a@x.com", none, none⟩) (.ok ()) 0 "t1").1 =
      CallbackOutcome.retryAuth ∧
    (callback (callback ⟨[], [], []⟩ (.ok ⟨"at", none, [], none⟩)
          (.ok ⟨"g-123", "a@x.com", none, none⟩) (.ok ()) 0 "t1").2
        (.ok ⟨"at", none, [], none⟩)
        (.ok ⟨"g-123", "a@x.com", none, none⟩) (.ok ()) 1 "t2").1 =
      CallbackOutcome.retryAuth := by
  refine ⟨by decide, by decide⟩

/-- C3 (amended): whenever the granted scope set misses a required scope,
the callback answers with the re-authorization redirect and changes no
state; this happens on every such callback, without a retry bound, and no
scope-mismatch error is ever surfaced by this path. -/
theorem callback_scope_mismatch_always_retries :
    ∀ (st : AuthState) (ts : TokenSet)
      (ui : Except String UserInfo) (dp : Except String Unit)
      (now : Int) (tok : String),
      (GOOGLE_SCOPES.all (fun s => ts.scopes.contains s)) = false →
      callback st (.ok ts) ui dp now tok = (.retryAuth, st) := by
  intro st ts ui dp now tok hmiss
  simp only [callback]
  rw [hmiss]
  rfl

/-- Witness for the amended C3 at a concrete mismatched grant. -/
theorem callback_scope_mismatch_always_retries_witness :
    callback ⟨[], [], []⟩ (.ok ⟨"at", none, ["openid"], none⟩)
        (.ok ⟨"g-123", "a@x.com", none, none⟩) (.ok ()) 0 "t1" =
      (.retryAuth, ⟨[], [], []⟩) :=
  callback_scope_mismatch_always_retries ⟨[], [], []⟩ ⟨"at", none, ["openid"], none⟩
    (.ok ⟨"g-123", "a@x.com", none, none⟩) (.ok ()) 0 "t1" (by decide)

/-- Lookup-or-create adds a user row exactly when no row with the subject
id exists: the row count for that subject id afterwards is the maximum of
the prior count and one. -/
theorem findOrCreateUser_count :
    ∀ (users : List UserRec) (info : UserInfo),
      countGoogleId (findOrCreateUser users info).2 info.id =
        max (countGoogleId users info.id) 1 := by
  intro users info
  unfold findOrCreateUser
  cases hfind : users.find? (fun u => u.google_id == info.id) with
  | some u =>
    have hmem := List.mem_of_find?_eq_some hfind
    have hpu := List.find?_some hfind
    have hpos : 1 ≤ countGoogleId users info.id := by
      have hin : u ∈ users.filter (fun v => v.google_id == info.id) :=
        List.mem_filter.mpr ⟨hmem, hpu⟩
      exact List.length_pos.mpr (List.ne_nil_of_mem hin)
    simp only []
    omega
  | none =>
    have hnil : users.filter (fun v => v.google_id == info.id) = [] := by
      rw [List.filter_eq_nil_iff]
      intro v hv
      simpa using List.find?_eq_none.mp hfind v hv
    simp [countGoogleId, List.filter_append, hnil]

/-- Appending one matching element to a list with no match makes it the
element found?. -/
theorem find?_append_singleton {α : Type} (p : α → Bool) (l : List α) (a : α)
    (hl : l.find? p = none) (ha : p a = true) : (l ++ [a]).find? p = some a := by
  induction l with
  | nil => simp [List.find?, ha]
  | cons b tl ih =>
    have hb : ¬ p b := by
      have := List.find?_eq_none.mp hl b (List.mem_cons_self b tl)
      simpa using this
    have htl : tl.find? p = none :=
      List.find?_eq_none.mpr (fun x hx => List.find?_eq_none.mp hl x (List.mem_cons_of_mem b hx))
    simpa [List.find?_cons_of_neg _ hb] using ih htl

/-- Lookup-or-create is idempotent: running it twice with the same subject
id leaves the user table of the first run unchanged. -/
theorem findOrCreateUser_idem :
    ∀ (users : List UserRec) (info : UserInfo),
      (findOrCreateUser (findOrCreateUser users info).2 info).2 =
        (findOrCreateUser users info).2 := by
  intro users info
  unfold findOrCreateUser
  cases hfind : users.find? (fun u => u.google_id == info.id) with
  | some u => simp [hfind]
  | none =>
    simp only []
    rw [find?_append_singleton _ users _ hfind (by simp)]

/-- C8: the callback resolves the local user by the remote subject id and
creates one only when absent: one successful callback leaves the user-row
count for the subject id at the maximum of its prior value and one, and
repeating the callback with the same subject id leaves the user table
unchanged — no second row is ever created for that subject id. -/
theorem callback_user_created_once :
    ∀ (st : AuthState) (ts : TokenSet) (info : UserInfo)
      (now1 now2 : Int) (tok1 tok2 : String),
      (GOOGLE_SCOPES.all (fun s => ts.scopes.contains s)) = true →
      countGoogleId ((callback st (.ok ts) (.ok info) (.ok ()) now1 tok1).2).users info.id =
        max (countGoogleId st.users info.id) 1 ∧
      ((callback ((callback st (.ok ts) (.ok info) (.ok ()) now1 tok1).2)
          (.ok ts) (.ok info) (.ok ()) now2 tok2).2).users =
        ((callback st (.ok ts) (.ok info) (.ok ()) now1 tok1).2).users := by
  intro st ts info now1 now2 tok1 tok2 hok
  have husers : ∀ (s : AuthState) (now : Int) (tok : String),
      ((callback s (.ok ts) (.ok info) (.ok ()) now tok).2).users =
        (findOrCreateUser s.users info).2 := by
    intro s now tok
    simp only [callback]
    rw [hok]
    rfl
  constructor
  · rw [husers]
    exact findOrCreateUser_count st.users info
  · rw [husers, husers]
    exact findOrCreateUser_idem st.users info

/-- Witness for C8: a fresh subject id g-123 yields exactly one user row,
and a repeated callback leaves the table as it is. -/
theorem callback_user_created_once_witness :
    countGoogleId ((callback ⟨[], [], []⟩
        (.ok ⟨"at", none, GOOGLE_SCOPES, none⟩)
        (.ok ⟨"g-123", "a@x.com", none, none⟩) (.ok ()) 0 "t1").2).users "g-123" = 1 ∧
    ((callback ((callback ⟨[], [], []⟩ (.ok ⟨"at", none, GOOGLE_SCOPES, none⟩)
          (.ok ⟨"g-123", "a@x.com", none, none⟩) (.ok ()) 0 "t1").2)
        (.ok ⟨"at", none, GOOGLE_SCOPES, none⟩)
        (.ok ⟨"g-123", "a@x.com", none, none⟩) (.ok ()) 1 "t2").2).users =
      ((callback ⟨[], [], []⟩ (.ok ⟨"at", none, GOOGLE_SCOPES, none⟩)
          (.ok ⟨"g-123", "a@x.com", none, none⟩) (.ok ()) 0 "t1").2).users :=
  callback_user_created_once ⟨[], [], []⟩ ⟨"at", none, GOOGLE_SCOPES, none⟩
    ⟨"g-123", "a@x.com", none, none⟩ 0 1 "t1" "t2" (by decide)

/-- Every character code point is below the Unicode upper bound. -/
theorem charToNat_lt (c : Char) : c.toNat < 1114112 := by
  show c.val.toNat < 1114112
  rcases c.valid with h | ⟨_, h⟩
  · exact Nat.lt_trans h (by norm_num)
  · exact h

/-- Hexadecimal digit characters are URL-safe and are not line breaks. -/
theorem hexDigitChar_good (m : Nat) (hm : m < 16) :
    urlSafeChar (hexDigitChar m) = true ∧
      hexDigitChar m ≠ '\n' ∧ hexDigitChar m ≠ '\r' := by
  interval_cases m <;> exact ⟨by decide, by decide, by decide⟩

/-- Each UTF-8 byte of a character is a byte value. -/
theorem utf8Bytes_lt (c : Char) : ∀ b ∈ utf8Bytes c, b < 256 := by
  intro b hb
  have hc := charToNat_lt c
  simp only [utf8Bytes] at hb
  by_cases h1 : c.toNat < 128
  · rw [if_pos h1] at hb; simp at hb; omega
  · rw [if_neg h1] at hb
    by_cases h2 : c.toNat < 2048
    · rw [if_pos h2] at hb; simp at hb
      rcases hb with rfl | rfl <;> omega
    · rw [if_neg h2] at hb
      by_cases h3 : c.toNat < 65536
      · rw [if_pos h3] at hb; simp at hb
        rcases hb with rfl | rfl | rfl <;> omega
      · rw [if_neg h3] at hb; simp at hb
        rcases hb with rfl | rfl | rfl | rfl <;> omega

/-- The percent escape of a byte consists of URL-safe, non-line-break
characters. -/
theorem percentByte_good (b : Nat) (hb : b < 256) :
    ∀ c ∈ percentByte b, urlSafeChar c = true ∧ c ≠ '\n' ∧ c ≠ '\r' := by
  intro c hc
  simp only [percentByte, List.mem_cons, List.not_mem_nil, or_false] at hc
  rcases hc with rfl | rfl | rfl
  · exact ⟨by decide, by decide, by decide⟩
  · exact hexDigitChar_good (b / 16) (by omega)
  · exact hexDigitChar_good (b % 16) (by omega)

/-- Quoting one character yields only URL-safe, non-line-break output. -/
theorem quoteChar_good (c : Char) :
    ∀ x ∈ quoteChar c, urlSafeChar x = true ∧ x ≠ '\n' ∧ x ≠ '\r' := by
  intro x hx
  unfold quoteChar at hx
  by_cases hsafe : (c.isAlphanum || c == '_' || c == '.' || c == '-' ||
      c == '~' || c == '/') = true
  · rw [if_pos hsafe] at hx
    simp only [List.mem_cons, List.not_mem_nil, or_false] at hx
    subst hx
    refine ⟨?_, ?_, ?_⟩
    · unfold urlSafeChar
      rw [hsafe]
      rfl
    · rintro rfl; exact absurd hsafe (by decide)
    · rintro rfl; exact absurd hsafe (by decide)
  · rw [if_neg hsafe] at hx
    rw [List.mem_flatten] at hx
    obtain ⟨l, hl, hxl⟩ := hx
    rw [List.mem_map] at hl
    obtain ⟨b, hb, rfl⟩ := hl
    exact percentByte_good b (utf8Bytes_lt c b hb) x hxl

/-- Quoting a whole string yields only URL-safe, non-line-break output. -/
theorem quote_good (s : String) :
    ∀ x ∈ (quote s).data, urlSafeChar x = true ∧ x ≠ '\n' ∧ x ≠ '\r' := by
  intro x hx
  have hx' : x ∈ (s.data.map quoteChar).flatten := hx
  rw [List.mem_flatten] at hx'
  obtain ⟨l, hl, hxl⟩ := hx'
  rw [List.mem_map] at hl
  obtain ⟨c, _, rfl⟩ := hl
  exact quoteChar_good c x hxl

/-- The callback error message is URL-safe and single-line, whatever the
raised error text. -/
theorem callbackErrorMessage_good (e : String) :
    ∀ x ∈ (callbackErrorMessage e).data,
      urlSafeChar x = true ∧ x ≠ '\n' ∧ x ≠ '\r' := by
  intro x hx
  simp only [callbackErrorMessage] at hx
  split at hx
  · exact quote_good scopeChangedFriendlyMessage x hx
  · exact quote_good (stripNewlines e) x hx

/-- C9: an exception in any of the three remote steps of the callback is
converted into the error redirect carrying the sanitized message, with no
state change; and that message is free of newlines and carriage returns
and consists only of percent-encoding output characters — never a raw
payload. -/
theorem callback_errors_sanitized :
    ∀ (st : AuthState) (e : String) (ts : TokenSet)
      (ui : Except String UserInfo) (dp : Except String Unit)
      (info : UserInfo) (now : Int) (tok : String),
      (GOOGLE_SCOPES.all (fun s => ts.scopes.contains s)) = true →
      callback st (.error e) ui dp now tok =
        (.error (callbackErrorMessage e), st) ∧
      callback st (.ok ts) (.error e) dp now tok =
        (.error (callbackErrorMessage e), st) ∧
      callback st (.ok ts) (.ok info) (.error e) now tok =
        (.error (callbackErrorMessage e), st) ∧
      ((callbackErrorMessage e).data.all
        (fun c => urlSafeChar c && !(c == '\n') && !(c == '\r'))) = true := by
  intro st e ts ui dp info now tok hok
  refine ⟨rfl, ?_, ?_, ?_⟩
  · simp only [callback]
    rw [hok]
    rfl
  · simp only [callback]
    rw [hok]
    rfl
  · rw [List.all_eq_true]
    intro x hx
    obtain ⟨h1, h2, h3⟩ := callbackErrorMessage_good e x hx
    simp [h1, h2, h3]

/-- Witness for C9 on an error text containing a newline. -/
theorem callback_errors_sanitized_witness :
    callback ⟨[], [], []⟩ (.error "boom\nline2")
        (.ok ⟨"g", "e", none, none⟩) (.ok ()) 0 "t" =
      (.error (callbackErrorMessage "boom\nline2"), ⟨[], [], []⟩) ∧
    ((callbackErrorMessage "boom\nline2").data.all
      (fun c => urlSafeChar c && !(c == '\n') && !(c == '\r'))) = true :=
  ⟨(callback_errors_sanitized ⟨[], [], []⟩ "boom\nline2"
      ⟨"at", none, GOOGLE_SCOPES, none⟩ (.ok ⟨"g", "e", none, none⟩) (.ok ())
      ⟨"g", "e", none, none⟩ 0 "t" (by decide)).1,
   (callback_errors_sanitized ⟨[], [], []⟩ "boom\nline2"
      ⟨"at", none, GOOGLE_SCOPES, none⟩ (.ok ⟨"g", "e", none, none⟩) (.ok ())
      ⟨"g", "e", none, none⟩ 0 "t" (by decide)).2.2.2⟩

/-- With a nonempty extension, the final name gets the extension appended
exactly when the metadata name does not already end with it. -/
theorem importedFileName_ne_empty (name ext : String) (h : ext ≠ "") :
    importedFileName name ext =
      if pyEndsWith name ext then name else name ++ ext := by
  unfold importedFileName
  by_cases he : pyEndsWith name ext = true <;> simp [he, h]

/-- With an empty extension the name passes through unchanged. -/
theorem importedFileName_empty (name : String) :
    importedFileName name "" = name := by
  simp [importedFileName]

/-- C5: the fixed classification table of the import: the document and
presentation subtypes are exported as PDF with a .pdf suffix appended when
missing, the spreadsheet subtype as the XLSX mime with .xlsx, any other
google-apps subtype fails as unsupported with nothing transferred and no
state change, and a native binary is downloaded raw with its reported
content type and name preserved. -/
theorem import_classification :
    ∀ (up : String) (uid : Nat) (fid name m : String) (size : Nat)
      (ow : Bool) (st : ImportState),
      st.files.find? (fun f => f.user_id == uid && f.google_drive_id == fid) = none →
      (m = "application/vnd.google-apps.document" →
        ∃ f : FileRec,
          import_file up uid fid ow name m size st =
            { result := .created f, files := st.files ++ [f],
              disk := insertPath st.disk f.local_path, transferred := true } ∧
          f.mime_type = "application/pdf" ∧
          f.name = (if pyEndsWith name ".pdf" then name else name ++ ".pdf")) ∧
      (m = "application/vnd.google-apps.spreadsheet" →
        ∃ f : FileRec,
          import_file up uid fid ow name m size st =
            { result := .created f, files := st.files ++ [f],
              disk := insertPath st.disk f.local_path, transferred := true } ∧
          f.mime_type = "application/vnd.openxmlformats-officedocument.spreadsheetml.sheet" ∧
          f.name = (if pyEndsWith name ".xlsx" then name else name ++ ".xlsx")) ∧
      (m = "application/vnd.google-apps.presentation" →
        ∃ f : FileRec,
          import_file up uid fid ow name m size st =
            { result := .created f, files := st.files ++ [f],
              disk := insertPath st.disk f.local_path, transferred := true } ∧
          f.mime_type = "application/pdf" ∧
          f.name = (if pyEndsWith name ".pdf" then name else name ++ ".pdf")) ∧
      (pyStartsWith m "application/vnd.google-apps" = true →
        m ≠ "application/vnd.google-apps.document" →
        m ≠ "application/vnd.google-apps.spreadsheet" →
        m ≠ "application/vnd.google-apps.presentation" →
        import_file up uid fid ow name m size st =
          { result := .unsupportedFormat, files := st.files, disk := st.disk,
            transferred := false }) ∧
      (pyStartsWith m "application/vnd.google-apps" = false →
        ∃ f : FileRec,
          import_file up uid fid ow name m size st =
            { result := .created f, files := st.files ++ [f],
              disk := insertPath st.disk f.local_path, transferred := true } ∧
          f.mime_type = m ∧ f.name = name) := by
  intro up uid fid name m size ow st hnone
  have hred : ∀ mm : String, import_file up uid fid ow name mm size st =
      importClassified up uid fid name mm size st.files st.files st.disk := by
    intro mm
    simp [import_file, hnone]
  refine ⟨?_, ?_, ?_, ?_, ?_⟩
  · rintro rfl
    refine ⟨⟨uid, importedFileName name ".pdf", "application/pdf", size, fid,
      localPath up uid fid (importedFileName name ".pdf")⟩, ?_, rfl, ?_⟩
    · rw [hred]
      rw [importClassified,
        show classifyMime "application/vnd.google-apps.document" =
          .exportAs "application/pdf" ".pdf" from by decide]
      rfl
    · exact importedFileName_ne_empty name ".pdf" (by decide)
  · rintro rfl
    refine ⟨⟨uid, importedFileName name ".xlsx",
      "application/vnd.openxmlformats-officedocument.spreadsheetml.sheet",
      size, fid, localPath up uid fid (importedFileName name ".xlsx")⟩, ?_, rfl, ?_⟩
    · rw [hred]
      rw [importClassified,
        show classifyMime "application/vnd.google-apps.spreadsheet" =
          .exportAs "application/vnd.openxmlformats-officedocument.spreadsheetml.sheet" ".xlsx"
        from by decide]
      rfl
    · exact importedFileName_ne_empty name ".xlsx" (by decide)
  · rintro rfl
    refine ⟨⟨uid, importedFileName name ".pdf", "application/pdf", size, fid,
      localPath up uid fid (importedFileName name ".pdf")⟩, ?_, rfl, ?_⟩
    · rw [hred]
      rw [importClassified,
        show classifyMime "application/vnd.google-apps.presentation" =
          .exportAs "application/pdf" ".pdf" from by decide]
      rfl
    · exact importedFileName_ne_empty name ".pdf" (by decide)
  · intro hpre h1 h2 h3
    have hcls : classifyMime m = .unsupported := by
      simp [classifyMime, h1, h2, h3, hpre]
    rw [hred, importClassified, hcls]
  · intro hpre
    have h1 : m ≠ "application/vnd.google-apps.document" := by
      rintro rfl
      rw [show pyStartsWith "application/vnd.google-apps.document"
        "application/vnd.google-apps" = true from by decide] at hpre
      exact Bool.noConfusion hpre
    have h2 : m ≠ "application/vnd.google-apps.spreadsheet" := by
      rintro rfl
      rw [show pyStartsWith "application/vnd.google-apps.spreadsheet"
        "application/vnd.google-apps" = true from by decide] at hpre
      exact Bool.noConfusion hpre
    have h3 : m ≠ "application/vnd.google-apps.presentation" := by
      rintro rfl
      rw [show pyStartsWith "application/vnd.google-apps.presentation"
        "application/vnd.google-apps" = true from by decide] at hpre
      exact Bool.noConfusion hpre
    have hcls : classifyMime m = .raw := by
      simp [classifyMime, h1, h2, h3, hpre]
    refine ⟨⟨uid, importedFileName name "", m, size, fid,
      localPath up uid fid (importedFileName name "")⟩, ?_, rfl, importedFileName_empty name⟩
    rw [hred, importClassified, hcls]
    rw [show importedFileName name "" = name from importedFileName_empty name]
    rfl

/-- Witness for C5: the unsupported form subtype is rejected with no state
change and no transfer. -/
theorem import_classification_witness :
    import_file "up" 1 "form1" false "My Form"
        "application/vnd.google-apps.form" 9 ⟨[], []⟩ =
      { result := .unsupportedFormat, files := [], disk := [],
        transferred := false } :=
  (import_classification "up" 1 "form1" "My Form"
      "application/vnd.google-apps.form" 9 false ⟨[], []⟩ (by decide)).2.2.2.1
    (by decide) (by decide) (by decide) (by decide)

/-- C10: with a prior row for the pair, overwrite on, and an unsupported
google-apps subtype, the import fails as unsupported after the prior blob
has already been removed from disk while the row deletion stays
uncommitted: afterwards the row is still in the table but its blob is
gone. -/
theorem import_overwrite_unsupported_orphan :
    ∀ (up : String) (uid : Nat) (fid name m : String) (size : Nat)
      (st : ImportState) (e : FileRec),
      st.files.find? (fun f => f.user_id == uid && f.google_drive_id == fid) = some e →
      e.local_path ∈ st.disk →
      st.disk.Nodup →
      pyStartsWith m "application/vnd.google-apps" = true →
      m ≠ "application/vnd.google-apps.document" →
      m ≠ "application/vnd.google-apps.spreadsheet" →
      m ≠ "application/vnd.google-apps.presentation" →
      import_file up uid fid true name m size st =
        { result := .unsupportedFormat, files := st.files,
          disk := st.disk.eraseP (fun p => p == e.local_path),
          transferred := false } ∧
      e ∈ (import_file up uid fid true name m size st).files ∧
      e.local_path ∉ (import_file up uid fid true name m size st).disk := by
  intro up uid fid name m size st e hfind hdisk hnodup hpre h1 h2 h3
  have hcls : classifyMime m = .unsupported := by
    simp [classifyMime, h1, h2, h3, hpre]
  have heq : import_file up uid fid true name m size st =
      { result := .unsupportedFormat, files := st.files,
        disk := st.disk.eraseP (fun p => p == e.local_path),
        transferred := false } := by
    simp [import_file, hfind, importClassified, hcls]
  refine ⟨heq, ?_, ?_⟩
  · rw [heq]
    exact List.mem_of_find?_eq_some hfind
  · rw [heq]
    show e.local_path ∉ st.disk.eraseP (fun p => p == e.local_path)
    rw [← List.erase_eq_eraseP' e.local_path st.disk]
    exact hnodup.not_mem_erase

/-- Witness for C10: importing the unsupported form subtype over a
prior import leaves the row with its blob removed. -/
theorem import_overwrite_unsupported_orphan_witness :
    import_file "up" 1 "fid" true "My Form"
        "application/vnd.google-apps.form" 9
        ⟨[⟨1, "n", "m", 3, "fid", "p"⟩], ["p"]⟩ =
      { result := .unsupportedFormat, files := [⟨1, "n", "m", 3, "fid", "p"⟩],
        disk := [], transferred := false } ∧
    (⟨1, "n", "m", 3, "fid", "p"⟩ : FileRec) ∈
      (import_file "up" 1 "fid" true "My Form"
        "application/vnd.google-apps.form" 9
        ⟨[⟨1, "n", "m", 3, "fid", "p"⟩], ["p"]⟩).files ∧
    "p" ∉ (import_file "up" 1 "fid" true "My Form"
        "application/vnd.google-apps.form" 9
        ⟨[⟨1, "n", "m", 3, "fid", "p"⟩], ["p"]⟩).disk :=
  import_overwrite_unsupported_orphan "up" 1 "fid" "My Form"
    "application/vnd.google-apps.form" 9
    ⟨[⟨1, "n", "m", 3, "fid", "p"⟩], ["p"]⟩ ⟨1, "n", "m", 3, "fid", "p"⟩
    (by decide) (by decide) (by decide) (by decide) (by decide) (by decide)
    (by decide)

/-- The digit-list builder appends its accumulator. -/
theorem toDigitsCore_acc :
    ∀ (f n : Nat) (acc : List Char),
      Nat.toDigitsCore 10 f n acc = Nat.toDigitsCore 10 f n [] ++ acc := by
  intro f
  induction f with
  | zero => intro n acc; simp [Nat.toDigitsCore]
  | succ f ih =>
    intro n acc
    simp only [Nat.toDigitsCore]
    by_cases h : n / 10 = 0
    · rw [if_pos h, if_pos h]
      rfl
    · rw [if_neg h, if_neg h]
      rw [ih (n / 10) [Nat.digitChar (n % 10)],
        ih (n / 10) (Nat.digitChar (n % 10) :: acc)]
      simp

/-- Any sufficient fuel computes the same digit list. -/
theorem toDigitsCore_fuel :
    ∀ (n f₁ f₂ : Nat), n < f₁ → n < f₂ →
      Nat.toDigitsCore 10 f₁ n [] = Nat.toDigitsCore 10 f₂ n [] := by
  intro n
  induction n using Nat.strong_induction_on with
  | _ n ih =>
    intro f₁ f₂ h₁ h₂
    cases f₁ with
    | zero => omega
    | succ g₁ =>
      cases f₂ with
      | zero => omega
      | succ g₂ =>
        simp only [Nat.toDigitsCore]
        by_cases h : n / 10 = 0
        · rw [if_pos h, if_pos h]
        · rw [if_neg h, if_neg h]
          rw [toDigitsCore_acc g₁ (n / 10) [Nat.digitChar (n % 10)],
            toDigitsCore_acc g₂ (n / 10) [Nat.digitChar (n % 10)]]
          rw [ih (n / 10) (by omega) g₁ g₂ (by omega) (by omega)]

/-- Below ten the digit list is one digit character. -/
theorem toDigits_lt_ten (n : Nat) (h : n < 10) :
    Nat.toDigits 10 n = [Nat.digitChar n] := by
  simp only [Nat.toDigits, Nat.toDigitsCore]
  rw [if_pos (Nat.div_eq_of_lt h), Nat.mod_eq_of_lt h]

/-- From ten up the digit list splits into the leading digits and the last
digit. -/
theorem toDigits_ge_ten (n : Nat) (h : 10 ≤ n) :
    Nat.toDigits 10 n = Nat.toDigits 10 (n / 10) ++ [Nat.digitChar (n % 10)] := by
  have hne : ¬ n / 10 = 0 := by omega
  simp only [Nat.toDigits, Nat.toDigitsCore]
  rw [if_neg hne,
    toDigitsCore_acc n (n / 10) [Nat.digitChar (n % 10)]]
  exact congrArg (· ++ [Nat.digitChar (n % 10)])
    (toDigitsCore_fuel (n / 10) n (n / 10 + 1) (by omega) (by omega))

/-- Digit lists are nonempty. -/
theorem toDigits_ne_nil (n : Nat) : Nat.toDigits 10 n ≠ [] := by
  by_cases h : n < 10
  · rw [toDigits_lt_ten n h]; simp
  · rw [toDigits_ge_ten n (by omega)]; simp

/-- A digit character of a value below ten is a decimal digit. -/
theorem digitChar_isDigit (n : Nat) (h : n < 10) :
    (Nat.digitChar n).isDigit = true := by
  interval_cases n <;> decide

/-- Every character of the decimal digit list is a digit. -/
theorem toDigits_all_digits :
    ∀ (n : Nat), ∀ c ∈ Nat.toDigits 10 n, c.isDigit = true := by
  intro n
  induction n using Nat.strong_induction_on with
  | _ n ih =>
    intro c hc
    by_cases h : n < 10
    · rw [toDigits_lt_ten n h] at hc
      simp only [List.mem_cons, List.not_mem_nil, or_false] at hc
      subst hc
      exact digitChar_isDigit n h
    · rw [toDigits_ge_ten n (by omega), List.mem_append] at hc
      rcases hc with hc | hc
      · exact ih (n / 10) (by omega) c hc
      · simp only [List.mem_cons, List.not_mem_nil, or_false] at hc
        subst hc
        exact digitChar_isDigit (n % 10) (by omega)

/-- Digit characters determine their value below ten. -/
theorem digitChar_inj (m n : Nat) (hm : m < 10) (hn : n < 10)
    (h : Nat.digitChar m = Nat.digitChar n) : m = n := by
  revert h
  interval_cases m <;> interval_cases n <;> decide

/-- The decimal digit list determines the number. -/
theorem toDigits_inj :
    ∀ (m : Nat), ∀ (n : Nat), Nat.toDigits 10 m = Nat.toDigits 10 n → m = n := by
  intro m
  induction m using Nat.strong_induction_on with
  | _ m ih =>
    intro n h
    by_cases hm : m < 10
    · by_cases hn : n < 10
      · rw [toDigits_lt_ten m hm, toDigits_lt_ten n hn] at h
        simp only [List.cons.injEq, and_true] at h
        exact digitChar_inj m n hm hn h
      · rw [toDigits_lt_ten m hm, toDigits_ge_ten n (by omega)] at h
        have hlen := congrArg List.length h
        have hpos := List.length_pos.mpr (toDigits_ne_nil (n / 10))
        simp only [List.length_cons, List.length_append, List.length_nil] at hlen
        omega
    · by_cases hn : n < 10
      · rw [toDigits_ge_ten m (by omega), toDigits_lt_ten n hn] at h
        have hlen := congrArg List.length h
        have hpos := List.length_pos.mpr (toDigits_ne_nil (m / 10))
        simp only [List.length_cons, List.length_append, List.length_nil] at hlen
        omega
      · rw [toDigits_ge_ten m (by omega), toDigits_ge_ten n (by omega)] at h
        have h' := congrArg List.reverse h
        simp only [List.reverse_append, List.reverse_cons, List.reverse_nil,
          List.nil_append, List.singleton_append, List.cons.injEq] at h'
        obtain ⟨hd, htl⟩ := h'
        have hdiv : m / 10 = n / 10 :=
          ih (m / 10) (by omega) (n / 10) (List.reverse_injective htl)
        have hmod : m % 10 = n % 10 :=
          digitChar_inj _ _ (by omega) (by omega) hd
        omega

/-- The decimal string of a natural number determines it. -/
theorem nat_repr_data_inj (m n : Nat)
    (h : (Nat.repr m).data = (Nat.repr n).data) : m = n := by
  apply toDigits_inj m n
  exact h

/-- No underscore appears in a decimal numeral. -/
theorem repr_no_underscore (n : Nat) : '_' ∉ (Nat.repr n).data := by
  intro hmem
  have hd : ('_').isDigit = true := toDigits_all_digits n '_' hmem
  exact absurd hd (by decide)

/-- Splitting two concatenations at their first underscore: when neither
leading part contains an underscore, equal concatenations have equal
parts. -/
theorem append_underscore_inj :
    ∀ (a₁ a₂ t₁ t₂ : List Char), '_' ∉ a₁ → '_' ∉ a₂ →
      a₁ ++ '_' :: t₁ = a₂ ++ '_' :: t₂ → a₁ = a₂ ∧ t₁ = t₂ := by
  intro a₁
  induction a₁ with
  | nil =>
    intro a₂ t₁ t₂ _ h₂ h
    cases a₂ with
    | nil => simpa using h
    | cons b bs =>
      simp only [List.nil_append, List.cons_append, List.cons.injEq] at h
      exact absurd (show ('_' : Char) ∈ b :: bs by rw [h.1]; exact List.mem_cons_self _ _) h₂
  | cons a as ih =>
    intro a₂ t₁ t₂ h₁ h₂ h
    cases a₂ with
    | nil =>
      simp only [List.cons_append, List.nil_append, List.cons.injEq] at h
      exact absurd (show ('_' : Char) ∈ a :: as by rw [← h.1]; exact List.mem_cons_self _ _) h₁
    | cons b bs =>
      simp only [List.cons_append, List.cons.injEq] at h
      obtain ⟨rfl, h'⟩ := h
      have hr := ih bs t₁ t₂ (fun hm => h₁ (List.mem_cons_of_mem _ hm))
        (fun hm => h₂ (List.mem_cons_of_mem _ hm)) h'
      exact ⟨by rw [hr.1], hr.2⟩

/-- The characters of the derived local path, split at the separators. -/
theorem localPath_data (up : String) (u : Nat) (f n : String) :
    (localPath up u f n).data =
      up.data ++ '/' ::
        ((Nat.repr u).data ++ '_' ::
          (f.data ++ '_' :: (sanitizeFilename n).data)) := by
  show (up ++ "/" ++ (toString u ++ "_" ++ f ++ "_" ++ sanitizeFilename n)).data = _
  have hts : (toString u : String) = Nat.repr u := rfl
  simp [String.data_append, hts, List.append_assoc]

/-- Non-google-apps content types classify as raw downloads. -/
theorem classifyMime_raw_of_not_ga (m : String)
    (h : pyStartsWith m "application/vnd.google-apps" = false) :
    classifyMime m = .raw := by
  have h1 : m ≠ "application/vnd.google-apps.document" := by
    rintro rfl
    rw [show pyStartsWith "application/vnd.google-apps.document"
      "application/vnd.google-apps" = true from by decide] at h
    exact Bool.noConfusion h
  have h2 : m ≠ "application/vnd.google-apps.spreadsheet" := by
    rintro rfl
    rw [show pyStartsWith "application/vnd.google-apps.spreadsheet"
      "application/vnd.google-apps" = true from by decide] at h
    exact Bool.noConfusion h
  have h3 : m ≠ "application/vnd.google-apps.presentation" := by
    rintro rfl
    rw [show pyStartsWith "application/vnd.google-apps.presentation"
      "application/vnd.google-apps" = true from by decide] at h
    exact Bool.noConfusion h
  simp [classifyMime, h1, h2, h3, h]

/-- Re-importing the same (user, file id, name) triple with overwrite from
the state produced by a first import reproduces that state: the derived
path is deterministic, so the blob is replaced in place. -/
theorem import_file_reimport_raw (up : String) (u : Nat) (f n m : String)
    (sz : Nat) (hraw : pyStartsWith m "application/vnd.google-apps" = false) :
    import_file up u f true n m sz
      ⟨(import_file up u f true n m sz ⟨[], []⟩).files,
       (import_file up u f true n m sz ⟨[], []⟩).disk⟩ =
      import_file up u f true n m sz ⟨[], []⟩ := by
  have hcls := classifyMime_raw_of_not_ga m hraw
  have h1 : import_file up u f true n m sz ⟨[], []⟩ =
      importDownloadCommit up u f n m "" sz [] [] := by
    simp [import_file, importClassified, hcls]
  rw [h1]
  simp only [importDownloadCommit, List.nil_append]
  have hip : insertPath [] (localPath up u f (importedFileName n "")) =
      [localPath up u f (importedFileName n "")] := by
    simp [insertPath]
  rw [hip]
  simp only [import_file]
  rw [List.find?_cons_of_pos _ (by simp)]
  simp only [Bool.not_true, Bool.false_eq_true, if_false]
  rw [List.eraseP_cons_of_pos (by simp), List.eraseP_cons_of_pos (by simp)]
  simp only [importClassified]
  rw [hcls]
  simp [importDownloadCommit, insertPath]

/-- C4 (counterexample): for one user, two distinct Drive file ids can
derive the same local path once the sanitized display name joins in,
because Drive ids and sanitized names may contain underscores: file id
a_b with name c and file id a with name b_c produce the same blob path,
and two fresh imports of these distinct objects target identical disk
states. -/
theorem localPath_collision_counterexample :
    localPath "up" 1 "a_b" "c" = localPath "up" 1 "a" "b_c" ∧
    ("a_b" : String) ≠ "a" ∧
    (import_file "up" 1 "a_b" false "c" "text/plain" 3 ⟨[], []⟩).disk =
      (import_file "up" 1 "a" false "b_c" "text/plain" 3 ⟨[], []⟩).disk := by
  refine ⟨by decide, by decide, by decide⟩

/-- C4 (amended): the derived path always separates distinct user ids
(the numeric id contains no underscore and ends at the first underscore);
for one user it separates distinct Drive file ids provided neither id
contains an underscore (with underscores, collisions such as the
counterexample exist); and re-importing the same (user, id, name) triple
derives the same path, reproducing the same files-and-disk state. -/
theorem localPath_injective_amended :
    ∀ (up : String) (u₁ u₂ : Nat) (f₁ f₂ n₁ n₂ m : String) (sz : Nat),
      (u₁ ≠ u₂ → localPath up u₁ f₁ n₁ ≠ localPath up u₂ f₂ n₂) ∧
      (u₁ = u₂ → f₁ ≠ f₂ → '_' ∉ f₁.data → '_' ∉ f₂.data →
        localPath up u₁ f₁ n₁ ≠ localPath up u₂ f₂ n₂) ∧
      (pyStartsWith m "application/vnd.google-apps" = false →
        import_file up u₁ f₁ true n₁ m sz
          ⟨(import_file up u₁ f₁ true n₁ m sz ⟨[], []⟩).files,
           (import_file up u₁ f₁ true n₁ m sz ⟨[], []⟩).disk⟩ =
          import_file up u₁ f₁ true n₁ m sz ⟨[], []⟩) := by
  intro up u₁ u₂ f₁ f₂ n₁ n₂ m sz
  refine ⟨?_, ?_, import_file_reimport_raw up u₁ f₁ n₁ m sz⟩
  · intro hu hpath
    have hd := congrArg String.data hpath
    rw [localPath_data, localPath_data] at hd
    have hd1 := List.append_cancel_left hd
    have hd2 := (List.cons.injEq _ _ _ _ ▸ hd1).2
    have hsplit := append_underscore_inj _ _ _ _
      (repr_no_underscore u₁) (repr_no_underscore u₂) hd2
    exact hu (nat_repr_data_inj u₁ u₂ hsplit.1)
  · intro hu hf hf₁ hf₂ hpath
    subst hu
    have hd := congrArg String.data hpath
    rw [localPath_data, localPath_data] at hd
    have hd1 := List.append_cancel_left hd
    have hd2 := (List.cons.injEq _ _ _ _ ▸ hd1).2
    have hsplit := append_underscore_inj _ _ _ _
      (repr_no_underscore u₁) (repr_no_underscore u₁) hd2
    have hsplit2 := append_underscore_inj _ _ _ _ hf₁ hf₂ hsplit.2
    exact hf (String.ext hsplit2.1)

/-- Witness for the amended C4 at concrete users, ids and names. -/
theorem localPath_injective_amended_witness :
    localPath "up" 1 "a" "n" ≠ localPath "up" 2 "a" "n" ∧
    localPath "up" 1 "a" "n" ≠ localPath "up" 1 "b" "n" ∧
    import_file "up" 1 "a" true "n" "text/plain" 3
      ⟨(import_file "up" 1 "a" true "n" "text/plain" 3 ⟨[], []⟩).files,
       (import_file "up" 1 "a" true "n" "text/plain" 3 ⟨[], []⟩).disk⟩ =
      import_file "up" 1 "a" true "n" "text/plain" 3 ⟨[], []⟩ :=
  ⟨(localPath_injective_amended "up" 1 2 "a" "a" "n" "n" "text/plain" 3).1
      (by decide),
   (localPath_injective_amended "up" 1 1 "a" "b" "n" "n" "text/plain" 3).2.1
      rfl (by decide) (by decide) (by decide),
   (localPath_injective_amended "up" 1 2 "a" "b" "n" "n" "text/plain" 3).2.2
      (by decide)⟩
